import Mathlib

/-!
Verification development for the golden-agents montias-reconciliation
pipeline: a shallow embedding of the graph builders (`convert.py`,
`convertGPI.py`, `convertFrick.py`) and the record-linkage engine
(`matching.py`), together with theorems settling the specification
claims about them.

Conventions of the embedding:
* CSV rows (Python `csv.DictReader` dicts with all-string values) are
  modelled as functions `String → String` from column name to cell value.
* `rdflib` graphs are modelled as `Finset Triple` (graph `add` has set
  semantics); each per-row builder contributes a computable `List Triple`
  that is unioned into the graph.
* Python `str(int)` is modelled by `decimalRepr`, `str.zfill` by
  `pyZfill` (including Python's sign-aware padding), `str.upper` by
  ASCII uppercasing (all strings the extraction heuristics produce are
  ASCII-relevant), and `int(...)` by `pyInt` (whitespace-stripped,
  optionally signed digit strings; the exotic underscore-separator form
  is not modelled).
* Similarity scores (`textacy.similarity.token_sort_ratio`, an external
  library) are modelled as an abstract function into `ℚ`; the engine's
  decision logic is parametric in it, as the spec treats the similarity
  measure as external.
-/

/-! ## String and numeral utilities -/

/-- Decimal digit test (models `\d` of Python's `re` on the ASCII range
and the digit check of `int(...)`). -/
def isDigitCh (c : Char) : Bool := '0' ≤ c && c ≤ '9'

/-- ASCII letter test (models membership in Python's
`string.ascii_letters`). -/
def isAsciiLetterCh (c : Char) : Bool :=
  ('a' ≤ c && c ≤ 'z') || ('A' ≤ c && c ≤ 'Z')

/-- Base-10 value of a digit character list, most significant first. -/
def listVal (l : List Char) : Nat :=
  l.foldl (fun a c => 10 * a + (c.toNat - 48)) 0

/-- Little-endian digit list of `n` (`go` is fuel-structured so that it
reduces in the kernel). -/
def decimalDigitsRev (n : Nat) : List Nat :=
  go n n
where
  go : Nat → Nat → List Nat
  | 0, _ => []
  | fuel + 1, n => if n = 0 then [] else n % 10 :: go fuel (n / 10)

/-- Canonical decimal numeral of a natural number: models Python's
`str(n)` for non-negative `n`. -/
def decimalRepr (n : Nat) : String :=
  if n = 0 then "0" else ⟨(decimalDigitsRev n).reverse.map Nat.digitChar⟩

/-- Left-pad a character list with `'0'` up to width `w`. -/
def padZeros (w : Nat) (l : List Char) : List Char :=
  List.replicate (w - l.length) '0' ++ l

/-- Python's `str.zfill(w)` on the character list: pad with zeros on
the left to width `w`, keeping a leading `'+'`/`'-'` sign in front of
the padding. -/
def pyZfillL (w : Nat) : List Char → List Char
  | c :: rest =>
    if c = '+' ∨ c = '-' then c :: padZeros (w - 1) rest else padZeros w (c :: rest)
  | [] => padZeros w []

/-- Python's `str.zfill(w)`. -/
def pyZfill (w : Nat) (s : String) : String := ⟨pyZfillL w s.data⟩

/-- `needle.startsWithL hay`-style check: does `hay` start with
`needle`? -/
def startsWithL : List Char → List Char → Bool
  | [], _ => true
  | _ :: _, [] => false
  | a :: as, b :: bs => a = b && startsWithL as bs

/-- Substring test, models Python's `needle in hay` on strings. -/
def containsSub (needle : List Char) : List Char → Bool
  | [] => needle.isEmpty
  | c :: rest => startsWithL needle (c :: rest) || containsSub needle rest

/-- ASCII model of Python's `str.upper()`. -/
def pyUpper (s : String) : String := ⟨s.data.map Char.toUpper⟩

/-- Python whitespace characters stripped by `int(...)`. -/
def isPySpace (c : Char) : Bool :=
  c = ' ' || c = '\t' || c = '\n' || c = '\x0d' || c = '\x0b' || c = '\x0c'

/-- Parse a nonempty all-digit character list. -/
def pyDigits (l : List Char) : Option Nat :=
  if l ≠ [] ∧ l.all isDigitCh then some (listVal l) else none

/-- Model of Python's `int(s)` on string input: strip whitespace, allow
one optional sign, then a nonempty digit run; anything else raises
(= `none`). -/
def pyInt (s : String) : Option Int :=
  let t := (s.data.dropWhile isPySpace).reverse.dropWhile isPySpace |>.reverse
  match t with
  | '+' :: rest => (pyDigits rest).map Int.ofNat
  | '-' :: rest => (pyDigits rest).map (fun n => -(n : Int))
  | l => (pyDigits l).map Int.ofNat

/-- Keep only ASCII letters: models
`"".join(i for i in s if i in string.ascii_letters)`
(`convert.py` / `convertGPI.py` `getArchive`, `convertFrick.py`
`getArchive`). -/
def lettersOnly (s : String) : String := ⟨s.data.filter isAsciiLetterCh⟩

/-! ## RDF terms and triples -/

/-- An RDF term: URI reference, blank node (named — every `BNode` in the
source is constructed with an explicit string label), or literal with
optional language tag and optional datatype. -/
inductive Term where
  | uri : String → Term
  | bnode : String → Term
  | lit : String → Option String → Option String → Term
deriving DecidableEq, Repr

abbrev Triple := Term × Term × Term

/-- Plain literal, `Literal(s)`. -/
def litP (s : String) : Term := Term.lit s none none
/-- Language-tagged literal, `Literal(s, lang=tag)`. -/
def litL (s tag : String) : Term := Term.lit s (some tag) none
/-- Datatyped literal, `Literal(s, datatype=dt)`. -/
def litD (s dt : String) : Term := Term.lit s none (some dt)

def nsSaa : String := "http://goldenagents.org/uva/SAA/ontology/"
def nsPerson : String := "http://goldenagents.org/uva/SAA/Person/"
def nsInventory : String := "http://goldenagents.org/uva/SAA/Inventory/"
def nsItem : String := "http://goldenagents.org/uva/SAA/Inventory/Item/"
def nsTgn : String := "http://vocab.getty.edu/tgn/"
def xsdDate : String := "http://www.w3.org/2001/XMLSchema#date"

/-- `saa.<name>` ontology term. -/
def saaT (s : String) : Term := Term.uri (nsSaa ++ s)
def rdfType : Term := Term.uri "http://www.w3.org/1999/02/22-rdf-syntax-ns#type"
def rdfsLabel : Term := Term.uri "http://www.w3.org/2000/01/rdf-schema#label"
def rdfsComment : Term := Term.uri "http://www.w3.org/2000/01/rdf-schema#comment"

/-- The `COUNTRIES` lookup table (identical in all three converter
modules). -/
def countriesTable : List (String × String) :=
  [("Netherlands", nsTgn ++ "7016845"),
   ("Belgium", nsTgn ++ "1000063"),
   ("Germany", nsTgn ++ "7000084")]

/-- The `CITIES` lookup table (identical in all three converter
modules). -/
def citiesTable : List (String × String) :=
  [("Alkmaar", nsTgn ++ "7007057"),
   ("Amsterdam", nsTgn ++ "7006952"),
   ("Antwerp", nsTgn ++ "7007856"),
   ("Dordrecht", nsTgn ++ "7006798"),
   ("Haarlem", nsTgn ++ "7007048"),
   ("Hamburg", nsTgn ++ "7005289"),
   ("Hoorn", nsTgn ++ "7007056"),
   ("Leiden", nsTgn ++ "7006809"),
   ("Hague, The", nsTgn ++ "7006810"),
   ("Utrecht", nsTgn ++ "7006926"),
   ("Wijk bij Duurstede", nsTgn ++ "7017400")]

/-! ## Canonical identifier minting -/

/-- Person identifier local name,
`f"{record_id}{role}{str(n).zfill(2)}"` (`getOwners`,
`getBeneficiaries`, `getAppraisers` in `convert.py` /
`convertGPI.py`). -/
def personIdent (recordId role : String) (n : Nat) : String :=
  recordId ++ role ++ pyZfill 2 (decimalRepr n)

/-- Item identifier local name,
`f"{record_id}_{item_no.zfill(4)}"` (`items2rdf` in `convert.py` /
`convertGPI.py`; `item_no` is the raw CSV string field). -/
def itemIdent (recordId itemNo : String) : String :=
  recordId ++ "_" ++ pyZfill 4 itemNo

/-- The role names used by the minting sites. -/
def roleNames : List String := ["owner", "beneficiary", "appraiser"]

/-! ## Dates (`datetime(year, month, day)` and `strftime('%Y-%m-%d')`) -/

/-- A validated Python `datetime.datetime` date (time components are
always midnight in the source). -/
structure PyDate where
  year : Int
  month : Int
  day : Int
deriving DecidableEq, Repr

/-- Proleptic-Gregorian leap-year rule used by `datetime`. -/
def isLeapYear (y : Int) : Bool :=
  y % 4 = 0 && (y % 100 ≠ 0 || y % 400 = 0)

/-- Days in a month, as validated by `datetime.datetime`. -/
def monthLength (y m : Int) : Int :=
  if m = 2 then (if isLeapYear y then 29 else 28)
  else if m = 4 || m = 6 || m = 9 || m = 11 then 30
  else 31

/-- `datetime.datetime(y, m, d)`: returns the date, or `none` when the
constructor would raise (year outside `MINYEAR..MAXYEAR`, month or day
out of range). -/
def mkDatetime (y m d : Int) : Option PyDate :=
  if 1 ≤ y ∧ y ≤ 9999 ∧ 1 ≤ m ∧ m ≤ 12 ∧ 1 ≤ d ∧ d ≤ monthLength y m then
    some ⟨y, m, d⟩
  else none

/-- `try: datetime(int(ys), int(ms), int(ds)) except: None` — the date
parsing attempt of `description2rdf` (`convert.py` 121-137,
`convertGPI.py` 179-196), one attempt per date. -/
def parseDateFields (ys ms ds : String) : Option PyDate := do
  let y ← pyInt ys
  let m ← pyInt ms
  let d ← pyInt ds
  mkDatetime y m d

/-- `strftime('%Y-%m-%d')` — zero-padded ISO rendering. -/
def fmtDate (d : PyDate) : String :=
  pyZfill 4 (decimalRepr d.year.toNat) ++ "-" ++
    pyZfill 2 (decimalRepr d.month.toNat) ++ "-" ++
    pyZfill 2 (decimalRepr d.day.toNat)

/-- Registration-date selection (`convert.py` 139-147, `convertGPI.py`
198-206):
`if all([beginDate, endDate]): date = beginDate`
`elif beginDate is None: date = endDate`
`elif endDate is None: date = beginDate`
`else: date = None`
(a `datetime` object is always truthy, so `all` means both present). -/
def registrationDateOf (b e : Option PyDate) : Option PyDate :=
  if b.isSome && e.isSome then b
  else if b.isNone then e
  else if e.isNone then b
  else none

/-! ## Reference parser, dialect A (`convert.py` 157-175, `convertGPI.py`
217-233)

Implements Python's `re.findall(r'(?:(?:NAA)|(?:GAA NA)) ([^ \,)]*)', s)`
restricted to the first match: scan left to right; at each position the
alternation tries `NAA` then `GAA NA`, each followed by a space, and
captures the maximal run of characters that are not space, comma or
closing parenthesis.  Both alternatives never match at the same
position (they start with different letters) and the capture is a
greedy run of a character class, so the first regex match is the first
position where either literal prefix (with its trailing space) applies.
-/

/-- A capture-terminating character of dialect A: `[^ \,)]` excludes
space, comma and `)`. -/
def isTermCh (c : Char) : Bool := c = ' ' || c = ',' || c = ')'

/-- First match of the dialect-A pattern in a character list. -/
def findA : List Char → Option (List Char)
  | [] => none
  | c :: rest =>
    if startsWithL "NAA ".data (c :: rest) then
      some (((c :: rest).drop 4).takeWhile (fun x => !isTermCh x))
    else if startsWithL "GAA NA ".data (c :: rest) then
      some (((c :: rest).drop 7).takeWhile (fun x => !isTermCh x))
    else findA rest

/-- Dialect-A book-number extraction: guarded by a nonempty
`archive_doc_no` (outer `if` at `convert.py` 157) and by
`'Amsterdam' in record['archive_loc']`; the captured token is
uppercased. -/
def dialectA (archiveLoc archiveDocNo : String) : Option String :=
  if archiveDocNo ≠ "" ∧ containsSub "Amsterdam".data archiveLoc.data then
    (findA archiveDocNo.data).map (fun cap => pyUpper ⟨cap⟩)
  else none

/-! ## Reference parser, dialect B (`convertFrick.py` 153-181)

Implements Python's `re.findall(r"(?:NA)?[ ]?(\d{2,5}[ ]?[A-B]?)", s)`
restricted to the first match.  At a given position the regex engine
prefers consuming `NA`, then one space, then a greedy run of 2-5
digits, then optionally one space and optionally one `A`/`B` — since
everything after the digit run is optional and the fallback branches
(not consuming `NA`, not consuming a present space) can never succeed
where the greedy branch failed (the skipped character is neither a
space nor a digit in those fallbacks), the greedy scan below is
equivalent to the backtracking engine. -/

/-- Match `\d{2,5}[ ]?[A-B]?` at the head of the list, returning the
capture (digits, then a consumed space and/or suffix letter when
present). -/
def matchDigitsPart (s : List Char) : Option (List Char) :=
  let run := s.takeWhile isDigitCh
  if run.length < 2 then none
  else
    let d := run.take 5
    match s.drop d.length with
    | ' ' :: 'A' :: _ => some (d ++ [' ', 'A'])
    | ' ' :: 'B' :: _ => some (d ++ [' ', 'B'])
    | ' ' :: _ => some (d ++ [' '])
    | 'A' :: _ => some (d ++ ['A'])
    | 'B' :: _ => some (d ++ ['B'])
    | _ => some d

/-- Match the whole dialect-B pattern at the head of the list. -/
def tryMatchB (s : List Char) : Option (List Char) :=
  let withNA : Option (List Char) :=
    match s with
    | 'N' :: 'A' :: r =>
      match r with
      | ' ' :: t => matchDigitsPart t
      | _ => matchDigitsPart r
    | _ => none
  match withNA with
  | some cap => some cap
  | none =>
    match s with
    | ' ' :: t => matchDigitsPart t
    | _ => matchDigitsPart s

/-- First match of the dialect-B pattern in a character list. -/
def findB : List Char → Option (List Char)
  | [] => none
  | c :: rest =>
    match tryMatchB (c :: rest) with
    | some cap => some cap
    | none => findB rest

/-- `s.upper().replace(' ', '')` applied to a capture. -/
def normalizeB (cap : List Char) : String :=
  ⟨(cap.map Char.toUpper).filter (fun c => c ≠ ' ')⟩

/-- Dialect-B book-number extraction: guarded by a nonempty
`call_number` (outer `if` at `convertFrick.py` 153); the three
disqualifying substrings `WK`, `DBK`, `boedel` yield no extraction;
otherwise the first regex match, uppercased with spaces removed. -/
def dialectB (callNumber : String) : Option String :=
  if callNumber = "" then none
  else if containsSub "WK".data callNumber.data then none
  else if containsSub "DBK".data callNumber.data then none
  else if containsSub "boedel".data callNumber.data then none
  else (findB callNumber.data).map normalizeB

/-! ## Archive identifiers -/

/-- `getArchive` identifier derivation of `convert.py` 260-279 /
`convertGPI.py` 350-375: guarded by a nonempty `archive_name`, the
`BNode` label keeps only the ASCII letters of
`archive_name + archive_loc`. -/
def archiveIdOf (archiveName archiveLoc : String) : Option String :=
  if archiveName ≠ "" then some (lettersOnly (archiveName ++ archiveLoc))
  else none

/-- `getArchive` identifier derivation of `convertFrick.py` 184-205:
this schema has a single `archive` free-text field (no separate
location column), filtered the same way. -/
def frickArchiveIdOf (archive : String) : Option String :=
  if archive ≠ "" then some (lettersOnly archive) else none

/-! ## Graph builders

A CSV row (Python `csv.DictReader` dict, all values strings) is a
function from column name to cell value. -/

abbrev Rec := String → String

/-- Fuel-structured `str.replace(pat, repl)` on character lists
(replaces every non-overlapping occurrence, left to right; the fuel is
the list length, which always suffices since each step consumes at
least one character). -/
def replaceAllGo (pat repl : List Char) : Nat → List Char → List Char
  | 0, l => l
  | _ + 1, [] => []
  | fuel + 1, c :: rest =>
    if pat ≠ [] ∧ startsWithL pat (c :: rest) then
      repl ++ replaceAllGo pat repl fuel ((c :: rest).drop pat.length)
    else c :: replaceAllGo pat repl fuel rest

/-- Python's `s.replace(pat, repl)` for nonempty `pat`. -/
def pyReplace (s pat repl : String) : String :=
  ⟨replaceAllGo pat.data repl.data s.data.length s.data⟩

/-! ### `convert.py` — Getty Dutch Archival Descriptions -/

/-- Inventory URI of a description row (`convert.py` 86). -/
def gettyInvTerm (r : Rec) : Term := Term.uri (nsInventory ++ r "pi_record_no")

/-- Unconditional base triples (`convert.py` 88-89). -/
def gettyDescBase (r : Rec) : List Triple :=
  [(gettyInvTerm r, rdfType, saaT "Inventory"),
   (gettyInvTerm r, saaT "identifier", litP (r "pi_record_no"))]

/-- `introduction` comment, skipped when empty (`convert.py` 94-96). -/
def gettyCommentTriples (r : Rec) : List Triple :=
  if r "introduction" = "" then []
  else [(gettyInvTerm r, rdfsComment, litL (r "introduction") "nl")]

/-- Country lookup (`convert.py` 91, 98-99). -/
def gettyCountryTriples (r : Rec) : List Triple :=
  match countriesTable.lookup (r "country_auth") with
  | some c => [(gettyInvTerm r, saaT "country", Term.uri c)]
  | none => []

/-- City lookup (`convert.py` 92, 100-101). -/
def gettyCityTriples (r : Rec) : List Triple :=
  match citiesTable.lookup (r "city_auth") with
  | some c => [(gettyInvTerm r, saaT "city", Term.uri c)]
  | none => []

/-- Document type, added unconditionally (`convert.py` 103-104). -/
def gettyDocTypeTriples (r : Rec) : List Triple :=
  [(gettyInvTerm r, saaT "documentType", litL (r "document_type") "en-US")]

/-- One slot of a role loop (`getOwners` / `getBeneficiaries` /
`getAppraisers`, `convert.py` 178-257): when the name field is
nonempty, a Person with its label and back-reference, plus the
role link added by the caller (`convert.py` 108-119). -/
def gettyRoleTriples (r : Rec) (field role pred : String) (n : Nat) : List Triple :=
  let name := r (field ++ decimalRepr n)
  if name = "" then []
  else
    let p := Term.uri (nsPerson ++ personIdent (r "pi_record_no") role n)
    [(p, rdfType, saaT "Person"),
     (p, rdfsLabel, litP name),
     (p, saaT "isInRecord", gettyInvTerm r),
     (gettyInvTerm r, saaT pred, p)]

/-- `getOwners` over `range(1, 6)` (`convert.py` 190). -/
def gettyOwnersTriples (r : Rec) : List Triple :=
  (List.range' 1 5).flatMap (gettyRoleTriples r "owner_name_" "owner" "owners")

/-- `getBeneficiaries` over `range(1, 13)` (`convert.py` 216). -/
def gettyBeneficiariesTriples (r : Rec) : List Triple :=
  (List.range' 1 12).flatMap
    (gettyRoleTriples r "benef_name_" "beneficiary" "beneficiaries")

/-- `getAppraisers` over `range(1, 15)` (`convert.py` 240). -/
def gettyAppraisersTriples (r : Rec) : List Triple :=
  (List.range' 1 14).flatMap
    (gettyRoleTriples r "appraiser_" "appraiser" "appraisers")

/-- The begin-date parse attempt of a description row. -/
def gettyParseBegin (r : Rec) : Option PyDate :=
  parseDateFields (r "begin_date_year") (r "begin_date_month") (r "begin_date_day")

/-- The end-date parse attempt of a description row. -/
def gettyParseEnd (r : Rec) : Option PyDate :=
  parseDateFields (r "end_date_year") (r "end_date_month") (r "end_date_day")

/-- `beginDate` statement, only when the parse succeeded
(`convert.py` 121-128). -/
def gettyBeginTriples (r : Rec) : List Triple :=
  match gettyParseBegin r with
  | some d => [(gettyInvTerm r, saaT "beginDate", litD (fmtDate d) xsdDate)]
  | none => []

/-- `endDate` statement, only when the parse succeeded
(`convert.py` 130-137). -/
def gettyEndTriples (r : Rec) : List Triple :=
  match gettyParseEnd r with
  | some d => [(gettyInvTerm r, saaT "endDate", litD (fmtDate d) xsdDate)]
  | none => []

/-- `registrationDate` statement from the selection rule
(`convert.py` 139-151). -/
def gettyRegTriples (r : Rec) : List Triple :=
  match registrationDateOf (gettyParseBegin r) (gettyParseEnd r) with
  | some d => [(gettyInvTerm r, saaT "registrationDate", litD (fmtDate d) xsdDate)]
  | none => []

/-- `getArchive` triples plus the `saa:archive` link
(`convert.py` 153-155, 260-279). -/
def gettyArchiveTriples (r : Rec) : List Triple :=
  match archiveIdOf (r "archive_name") (r "archive_loc") with
  | some a =>
    [(Term.bnode a, rdfType, saaT "Archive"),
     (Term.bnode a, rdfsLabel, litP (r "archive_name"))] ++
    (if r "archive_loc" = "" then []
     else [(Term.bnode a, saaT "location", litP (r "archive_loc"))]) ++
    [(gettyInvTerm r, saaT "archive", Term.bnode a)]
  | none => []

/-- Document reference and dialect-A `InventoryBook` extraction
(`convert.py` 157-173). -/
def gettyDocRefTriples (r : Rec) : List Triple :=
  if r "archive_doc_no" = "" then []
  else
    (gettyInvTerm r, saaT "archiveDocumentReference", litP (r "archive_doc_no")) ::
    (match dialectA (r "archive_loc") (r "archive_doc_no") with
     | some num =>
       let book := Term.bnode ("saaInventory" ++ num)
       [(book, saaT "inventoryNumber", litP num)] ++
       (match archiveIdOf (r "archive_name") (r "archive_loc") with
        | some a => [(book, saaT "heldBy", Term.bnode a)]
        | none => []) ++
       [(gettyInvTerm r, saaT "documentedIn", book)]
     | none => [])

/-- All triples contributed by `description2rdf` (`convert.py` 75-175)
for one row. -/
def gettyDescTriples (r : Rec) : List Triple :=
  gettyDescBase r ++ gettyCommentTriples r ++ gettyCountryTriples r ++
  gettyCityTriples r ++ gettyDocTypeTriples r ++ gettyOwnersTriples r ++
  gettyBeneficiariesTriples r ++ gettyAppraisersTriples r ++
  gettyBeginTriples r ++ gettyEndTriples r ++ gettyRegTriples r ++
  gettyArchiveTriples r ++ gettyDocRefTriples r

/-- `description2rdf(record, g)` as a graph transformer. -/
def gettyDescription2rdf (r : Rec) (g : Finset Triple) : Finset Triple :=
  g ∪ (gettyDescTriples r).toFinset

/-- Item URI of an items row (`convert.py` 293-294). -/
def gettyItemTerm (r : Rec) : Term :=
  Term.uri (nsItem ++ itemIdent (r "pi_inventory_no") (r "assigned_item_no"))

/-- Inventory URI of an items row (`convert.py` 292). -/
def gettyItemInvTerm (r : Rec) : Term := Term.uri (nsInventory ++ r "pi_inventory_no")

/-- `persistent_uid`, skipped when empty (`convert.py` 303-304). -/
def gettyPuidTriples (r : Rec) : List Triple :=
  if r "persistent_uid" = "" then []
  else [(gettyItemTerm r, saaT "identifier", litP (r "persistent_uid"))]

/-- `room`, skipped when empty (`convert.py` 309-310). -/
def gettyRoomTriples (r : Rec) : List Triple :=
  if r "room" = "" then []
  else [(gettyItemTerm r, saaT "room", litL (r "room") "nl")]

/-- `valuation_amount`, skipped when empty (`convert.py` 312-313). -/
def gettyValuationTriples (r : Rec) : List Triple :=
  if r "valuation_amount" = "" then []
  else [(gettyItemTerm r, saaT "valuation", litP (r "valuation_amount"))]

/-- All triples contributed by `items2rdf` (`convert.py` 282-315) for
one row; `label` and `transcription` are added unconditionally. -/
def gettyItemTriples (r : Rec) : List Triple :=
  [(gettyItemInvTerm r, saaT "content", gettyItemTerm r),
   (gettyItemTerm r, saaT "isInRecord", gettyItemInvTerm r),
   (gettyItemTerm r, rdfType, saaT "Item"),
   (gettyItemTerm r, saaT "index", litP (r "assigned_item_no"))] ++
  gettyPuidTriples r ++
  [(gettyItemTerm r, rdfsLabel, litL (r "title") "nl"),
   (gettyItemTerm r, saaT "transcription", litL (r "entry") "nl")] ++
  gettyRoomTriples r ++ gettyValuationTriples r

/-- `items2rdf(record, g)` as a graph transformer. -/
def gettyItems2rdf (r : Rec) (g : Finset Triple) : Finset Triple :=
  g ∪ (gettyItemTriples r).toFinset

/-! ### `convertFrick.py` — Frick/Montias Archival Descriptions -/

/-- Inventory URI of a Frick description row (`convertFrick.py` 99). -/
def frickInvTerm (r : Rec) : Term := Term.uri (nsInventory ++ r "inventory_number")

/-- Unconditional base triples (`convertFrick.py` 101-103). -/
def frickDescBase (r : Rec) : List Triple :=
  [(frickInvTerm r, rdfType, saaT "Inventory"),
   (frickInvTerm r, saaT "identifier", litP (r "inventory_number")),
   (frickInvTerm r, saaT "montiasId", litP (r "montias_id"))]

/-- `introduction` comment, skipped when empty
(`convertFrick.py` 108-110). -/
def frickCommentTriples (r : Rec) : List Triple :=
  if r "introduction" = "" then []
  else [(frickInvTerm r, rdfsComment, litL (r "introduction") "nl")]

/-- `commentary` comment, skipped when empty
(`convertFrick.py` 111-113). -/
def frickCommentaryTriples (r : Rec) : List Triple :=
  if r "commentary" = "" then []
  else [(frickInvTerm r, rdfsComment, litL (r "commentary") "en")]

/-- Country lookup (`convertFrick.py` 105, 115-116). -/
def frickCountryTriples (r : Rec) : List Triple :=
  match countriesTable.lookup (r "country") with
  | some c => [(frickInvTerm r, saaT "country", Term.uri c)]
  | none => []

/-- City lookup (`convertFrick.py` 106, 117-118). -/
def frickCityTriples (r : Rec) : List Triple :=
  match citiesTable.lookup (r "city") with
  | some c => [(frickInvTerm r, saaT "city", Term.uri c)]
  | none => []

/-- Document type from the `type` column, unconditional
(`convertFrick.py` 120). -/
def frickDocTypeTriples (r : Rec) : List Triple :=
  [(frickInvTerm r, saaT "documentType", litL (r "type") "en-US")]

/-- The single owner slot, skipped when `owner_name` is empty
(`convertFrick.py` 122-132); the identifier suffix is the literal
`"owner01"`, i.e. `personIdent _ "owner" 1`. -/
def frickOwnerTriples (r : Rec) : List Triple :=
  if r "owner_name" = "" then []
  else
    let p := Term.uri (nsPerson ++ r "inventory_number" ++ "owner01")
    [(p, rdfType, saaT "Person"),
     (p, rdfsLabel, litP (r "owner_name")),
     (frickInvTerm r, saaT "owners", p),
     (p, saaT "isInRecord", frickInvTerm r)]

/-- `appraiser`, a plain literal, skipped when empty
(`convertFrick.py` 136-138). -/
def frickAppraiserTriples (r : Rec) : List Triple :=
  if r "appraiser" = "" then []
  else [(frickInvTerm r, saaT "appraisers", litP (r "appraiser"))]

/-- The massaged date string
(`date.replace('/', '-').replace('c. ', '')`,
`convertFrick.py` 142-144). -/
def frickDate (r : Rec) : String :=
  pyReplace (pyReplace (r "date") "/" "-") "c. " ""

/-- `registrationDate`, added unconditionally — even for an empty
`date` cell (`convertFrick.py` 146). -/
def frickRegTriples (r : Rec) : List Triple :=
  [(frickInvTerm r, saaT "registrationDate", litD (frickDate r) xsdDate)]

/-- `getArchive` triples plus the `saa:archive` link
(`convertFrick.py` 148-151, 184-205). -/
def frickArchiveTriples (r : Rec) : List Triple :=
  match frickArchiveIdOf (r "archive") with
  | some a =>
    [(Term.bnode a, rdfType, saaT "Archive"),
     (Term.bnode a, rdfsLabel, litP (r "archive")),
     (frickInvTerm r, saaT "archive", Term.bnode a)]
  | none => []

/-- Call-number reference and dialect-B `InventoryBook` extraction
(`convertFrick.py` 153-179). -/
def frickCallNumberTriples (r : Rec) : List Triple :=
  if r "call_number" = "" then []
  else
    (frickInvTerm r, saaT "archiveDocumentReference", litP (r "call_number")) ::
    (match dialectB (r "call_number") with
     | some num =>
       let book := Term.bnode ("saaInventory" ++ num)
       [(book, saaT "inventoryNumber", litP num)] ++
       (match frickArchiveIdOf (r "archive") with
        | some a => [(book, saaT "heldBy", Term.bnode a)]
        | none => []) ++
       [(book, rdfType, saaT "InventoryBook"),
        (frickInvTerm r, saaT "documentedIn", book)]
     | none => [])

/-- All triples contributed by `description2rdf`
(`convertFrick.py` 87-181) for one row. -/
def frickDescTriples (r : Rec) : List Triple :=
  frickDescBase r ++ frickCommentTriples r ++ frickCommentaryTriples r ++
  frickCountryTriples r ++ frickCityTriples r ++ frickDocTypeTriples r ++
  frickOwnerTriples r ++ frickAppraiserTriples r ++ frickRegTriples r ++
  frickArchiveTriples r ++ frickCallNumberTriples r

/-- `description2rdf(record, g)` as a graph transformer. -/
def frickDescription2rdf (r : Rec) (g : Finset Triple) : Finset Triple :=
  g ∪ (frickDescTriples r).toFinset

/-- Item URI of a Frick items row: the `inventory_lot` string with
`[`, `]` and backtick characters removed (`convertFrick.py` 219-220). -/
def frickItemTerm (r : Rec) : Term :=
  Term.uri (nsItem ++ ⟨(r "inventory_lot").data.filter
    (fun c => !(c = '[' || c = ']' || c = '\x60'))⟩)

/-- Inventory URI of a Frick items row (`convertFrick.py` 218). -/
def frickItemInvTerm (r : Rec) : Term :=
  Term.uri (nsInventory ++ r "inventory_number")

/-- `room`, skipped when empty (`convertFrick.py` 237-238). -/
def frickRoomTriples (r : Rec) : List Triple :=
  if r "room" = "" then []
  else [(frickItemTerm r, saaT "room", litL (r "room") "nl")]

/-- `value`, skipped when empty (`convertFrick.py` 240-241). -/
def frickValueTriples (r : Rec) : List Triple :=
  if r "value" = "" then []
  else [(frickItemTerm r, saaT "valuation", litP (r "value"))]

/-- All triples contributed by `items2rdf` (`convertFrick.py` 208-243)
for one row; `workType`, `label`, `artist` and `transcription` are
added unconditionally. -/
def frickItemTriples (r : Rec) : List Triple :=
  [(frickItemInvTerm r, saaT "content", frickItemTerm r),
   (frickItemTerm r, saaT "isInRecord", frickItemInvTerm r),
   (frickItemTerm r, rdfType, saaT "Item"),
   (frickItemTerm r, saaT "index", litP (r "assigned_item_no")),
   (frickItemTerm r, saaT "workType", litL (r "type") "en"),
   (frickItemTerm r, rdfsLabel, litL (r "title") "nl"),
   (frickItemTerm r, saaT "artist", litP (r "artist_name")),
   (frickItemTerm r, saaT "transcription", litL (r "entry") "nl")] ++
  frickRoomTriples r ++ frickValueTriples r

/-- `items2rdf(record, g)` as a graph transformer. -/
def frickItems2rdf (r : Rec) (g : Finset Triple) : Finset Triple :=
  g ∪ (frickItemTriples r).toFinset

/-! ## Record linkage engine (`matching.py`) -/

/-- One row of the pre-joined candidate table (`matchQueryResults.csv`,
columns bound by the SPARQL query in the module docstring; only the
columns read by `main` are listed). -/
structure CandRow where
  dataset : String
  inventory : String
  owner_a : String
  owner_b : String
  actType : String
  record : String
deriving DecidableEq, Repr

/-- The act-type whitelist (`matching.py` 59-62). -/
def actTypeWhitelist : List String :=
  ["Boedelinventaris", "Boedelscheiding", "Testament",
   "Overig", "Huwelijkse voorwaarden", "Kwitantie"]

/-- A linkset entry: the inventory identifier together with the
`(dataset, record, actType)` triple stored in its set
(`matching.py` 65-66). -/
abbrev LinkEntry := String × String × String × String

/-- The entry a row contributes when accepted. -/
def linkOf (r : CandRow) : LinkEntry :=
  (r.inventory, r.dataset, r.record, r.actType)

/-- Acceptance condition of `main` (`matching.py` 55-66): the
similarity score strictly exceeds `0.8` and the act type is
whitelisted.  `sim` abstracts `textacy.similarity.token_sort_ratio`. -/
def acceptRow (sim : String → String → ℚ) (r : CandRow) : Prop :=
  (4 / 5 : ℚ) < sim r.owner_a r.owner_b ∧ r.actType ∈ actTypeWhitelist

instance (sim : String → String → ℚ) (r : CandRow) :
    Decidable (acceptRow sim r) := by unfold acceptRow; infer_instance

/-- One loop iteration of `main`: record the link when accepted.  The
`defaultdict(set)` linkset is modelled extensionally as the set of
(inventory, member) pairs — an inventory key exists exactly when some
member was added under it. -/
def linkStep (sim : String → String → ℚ) (ls : Finset LinkEntry) (r : CandRow) :
    Finset LinkEntry :=
  if acceptRow sim r then insert (linkOf r) ls else ls

/-- `main(filepath)` of `matching.py`, over an in-memory row list. -/
def mainLinkset (sim : String → String → ℚ) (rows : List CandRow) :
    Finset LinkEntry :=
  rows.foldl (linkStep sim) ∅

/-- A candidate row as `pandas.read_csv` actually delivers it: an empty
owner cell becomes a missing value (`NaN`) rather than an empty string.
`none` models such a missing owner name. -/
structure CandRowE where
  dataset : String
  inventory : String
  owner_a : Option String
  owner_b : Option String
  actType : String
  record : String
deriving DecidableEq, Repr

/-- `main` over rows that may miss an owner name.  The loop body calls
`token_sort_ratio(a, b)` unconditionally and contains no `try/except`:
on a missing operand the library call raises (string methods on a
non-string), and the uncaught exception propagates out of `main` —
modelled as `Except.error`, which aborts the remaining rows. -/
def mainLinksetE (sim : String → String → ℚ) :
    List CandRowE → Finset LinkEntry → Except Unit (Finset LinkEntry)
  | [], acc => .ok acc
  | r :: rs, acc =>
    match r.owner_a, r.owner_b with
    | some a, some b =>
      mainLinksetE sim rs
        (if (4 / 5 : ℚ) < sim a b ∧ r.actType ∈ actTypeWhitelist then
          insert (r.inventory, r.dataset, r.record, r.actType) acc
        else acc)
    | _, _ => .error ()

/-! ## Theorems -/

/-- Membership in the linkset fold, for any accumulator. -/
lemma mem_foldl_linkStep (sim : String → String → ℚ) (rows : List CandRow)
    (init : Finset LinkEntry) (e : LinkEntry) :
    e ∈ rows.foldl (linkStep sim) init ↔
      e ∈ init ∨ ∃ r ∈ rows, acceptRow sim r ∧ linkOf r = e := by
  induction rows generalizing init with
  | nil => simp
  | cons r rs ih =>
    rw [List.foldl_cons, ih]
    unfold linkStep
    by_cases h : acceptRow sim r
    · simp only [if_pos h, Finset.mem_insert, List.mem_cons]
      constructor
      · rintro ((rfl | he) | hex)
        · exact Or.inr ⟨r, Or.inl rfl, h, rfl⟩
        · exact Or.inl he
        · obtain ⟨r', hr', hacc, hlink⟩ := hex
          exact Or.inr ⟨r', Or.inr hr', hacc, hlink⟩
      · rintro (he | ⟨r', (rfl | hr'), hacc, hlink⟩)
        · exact Or.inl (Or.inr he)
        · exact Or.inl (Or.inl hlink.symm)
        · exact Or.inr ⟨r', hr', hacc, hlink⟩
    · simp only [if_neg h, List.mem_cons]
      constructor
      · rintro (he | ⟨r', hr', hacc, hlink⟩)
        · exact Or.inl he
        · exact Or.inr ⟨r', Or.inr hr', hacc, hlink⟩
      · rintro (he | ⟨r', (rfl | hr'), hacc, hlink⟩)
        · exact Or.inl he
        · exact absurd hacc h
        · exact Or.inr ⟨r', hr', hacc, hlink⟩

/-- An entry is in the final linkset iff some row of the input produced
it. -/
lemma mem_mainLinkset (sim : String → String → ℚ) (rows : List CandRow)
    (e : LinkEntry) :
    e ∈ mainLinkset sim rows ↔ ∃ r ∈ rows, acceptRow sim r ∧ linkOf r = e := by
  rw [mainLinkset, mem_foldl_linkStep]; simp

/-- C1: a candidate row's link is recorded iff its similarity score
strictly exceeds 0.8 and its act type is one of the six whitelisted
values; a score of exactly 0.8 is rejected, and a score of 0.95 with
act type "Unknown" is rejected. -/
theorem claim_C1_link_threshold_and_whitelist :
    (∀ (sim : String → String → ℚ) rows r, r ∈ rows → acceptRow sim r →
      linkOf r ∈ mainLinkset sim rows) ∧
    (∀ (sim : String → String → ℚ) rows e, e ∈ mainLinkset sim rows →
      ∃ r ∈ rows, acceptRow sim r ∧ linkOf r = e) ∧
    (∀ (sim : String → String → ℚ) r, acceptRow sim r ↔
      ((4 / 5 : ℚ) < sim r.owner_a r.owner_b ∧ r.actType ∈ actTypeWhitelist)) ∧
    (∀ (sim : String → String → ℚ) r, sim r.owner_a r.owner_b = 4 / 5 →
      linkOf r ∉ mainLinkset sim [r]) ∧
    (∀ (sim : String → String → ℚ) r, sim r.owner_a r.owner_b = 19 / 20 →
      r.actType = "Unknown" → linkOf r ∉ mainLinkset sim [r]) := by
  refine ⟨?_, ?_, fun _ _ => Iff.rfl, ?_, ?_⟩
  · intro sim rows r hr hacc
    exact (mem_mainLinkset sim rows (linkOf r)).2 ⟨r, hr, hacc, rfl⟩
  · intro sim rows e he
    exact (mem_mainLinkset sim rows e).1 he
  · intro sim r h hmem
    obtain ⟨r', hr', hacc, _⟩ := (mem_mainLinkset sim [r] (linkOf r)).1 hmem
    rw [List.mem_singleton] at hr'
    subst hr'
    exact absurd hacc.1 (by rw [h]; exact lt_irrefl _)
  · intro sim r hsim hact hmem
    obtain ⟨r', hr', hacc, _⟩ := (mem_mainLinkset sim [r] (linkOf r)).1 hmem
    rw [List.mem_singleton] at hr'
    subst hr'
    have h2 := hacc.2
    rw [hact] at h2
    exact absurd h2 (by decide)

/-- A score-independent similarity stub used for concrete runs. -/
def simNine : String → String → ℚ := fun _ _ => 9 / 10

/-- A concrete accepted candidate row. -/
def cRow1 : CandRow :=
  ⟨"getty", "inv1", "Jansen, Jan", "Jan Jansen", "Testament", "rec1"⟩

theorem claim_C1_link_threshold_and_whitelist_witness :
    linkOf cRow1 ∈ mainLinkset simNine [cRow1] ∧
    linkOf cRow1 ∉ mainLinkset (fun _ _ => 4 / 5) [cRow1] ∧
    linkOf { cRow1 with actType := "Unknown" } ∉
      mainLinkset (fun _ _ => 19 / 20) [{ cRow1 with actType := "Unknown" }] :=
  ⟨claim_C1_link_threshold_and_whitelist.1 simNine [cRow1] cRow1 (by decide)
     ⟨by norm_num [simNine], by decide⟩,
   claim_C1_link_threshold_and_whitelist.2.2.2.1 _ cRow1 rfl,
   claim_C1_link_threshold_and_whitelist.2.2.2.2 _ _ rfl rfl⟩

/-- C7: accepted rows are grouped per inventory into a set of
(dataset, record, actType) members — two accepted rows with identical
link data contribute exactly one entry — and an inventory none of whose
rows is accepted does not occur in the linkset at all. -/
theorem claim_C7_linkset_grouping :
    (∀ (sim : String → String → ℚ) rows r₁ r₂, r₁ ∈ rows → r₂ ∈ rows →
      acceptRow sim r₁ → acceptRow sim r₂ → linkOf r₁ = linkOf r₂ →
      ((mainLinkset sim rows).filter (fun e => e = linkOf r₁)).card = 1) ∧
    (∀ (sim : String → String → ℚ) rows inv,
      (∃ e ∈ mainLinkset sim rows, e.1 = inv) →
      ∃ r ∈ rows, acceptRow sim r ∧ r.inventory = inv) := by
  constructor
  · intro sim rows r₁ r₂ h₁ _ ha₁ _ _
    have hmem : linkOf r₁ ∈ mainLinkset sim rows :=
      (mem_mainLinkset _ _ _).2 ⟨r₁, h₁, ha₁, rfl⟩
    rw [Finset.filter_eq', if_pos hmem, Finset.card_singleton]
  · rintro sim rows inv ⟨e, he, hinv⟩
    obtain ⟨r, hr, hacc, hlinkEq⟩ := (mem_mainLinkset _ _ _).1 he
    exact ⟨r, hr, hacc, by rw [← hinv, ← hlinkEq]; rfl⟩

/-- A second accepted row carrying the same link data as `cRow1` but a
differently spelled owner pair. -/
def cRow2 : CandRow :=
  ⟨"getty", "inv1", "J. Jansen", "Jan Jansen", "Testament", "rec1"⟩

theorem claim_C7_linkset_grouping_witness :
    ((mainLinkset simNine [cRow1, cRow2]).filter
      (fun e => e = linkOf cRow1)).card = 1 ∧
    ∃ r ∈ [cRow1, cRow2], acceptRow simNine r ∧ r.inventory = "inv1" :=
  ⟨claim_C7_linkset_grouping.1 simNine [cRow1, cRow2] cRow1 cRow2 (by decide)
     (by decide) ⟨by norm_num [simNine], by decide⟩
     ⟨by norm_num [simNine], by decide⟩ rfl,
   claim_C7_linkset_grouping.2 simNine [cRow1, cRow2] "inv1"
     ⟨linkOf cRow1,
      (mem_mainLinkset _ _ _).2
        ⟨cRow1, by decide, ⟨by norm_num [simNine], by decide⟩, rfl⟩, rfl⟩⟩

/-- A candidate row whose `owner_a` cell is missing. -/
def cRowBad : CandRowE := ⟨"getty", "inv0", none, some "Jan Jansen", "Testament", "rec0"⟩

/-- A fully populated candidate row. -/
def cRowGood : CandRowE :=
  ⟨"getty", "inv1", some "Jansen, Jan", some "Jan Jansen", "Testament", "rec1"⟩

/-- C8 counterexample: a batch holding one row with a missing owner
name aborts with an error instead of skipping that row — the same good
row alone yields a one-link linkset, but behind the defective row no
linkset is produced at all. -/
theorem claim_C8_counterexample_batch_aborts :
    mainLinksetE simNine [cRowBad, cRowGood] ∅ = Except.error () ∧
    mainLinksetE simNine [cRowGood] ∅ =
      Except.ok {("inv1", "getty", "rec1", "Testament")} := by
  refine ⟨rfl, ?_⟩
  show mainLinksetE simNine [] _ = _
  rw [if_pos ⟨by norm_num [simNine], by decide⟩]
  rfl

/-- C8 amended: a candidate row with a missing owner name is not
skipped — the unguarded similarity call fails on the missing value and
the whole batch aborts, producing no linkset for the remaining rows. -/
theorem claim_C8_amended_missing_owner_aborts :
    ∀ (sim : String → String → ℚ) (rows : List CandRowE) (acc : Finset LinkEntry),
      (∃ r ∈ rows, r.owner_a = none ∨ r.owner_b = none) →
      mainLinksetE sim rows acc = Except.error () := by
  intro sim rows
  induction rows with
  | nil => intro acc h; simp at h
  | cons r rs ih =>
    intro acc h
    obtain ⟨r', hr', hdef⟩ := h
    rcases List.mem_cons.1 hr' with rfl | hmem
    · rcases hdef with h0 | h0
      · cases hb : r'.owner_b <;> simp [mainLinksetE, h0, hb]
      · cases ha : r'.owner_a <;> simp [mainLinksetE, h0, ha]
    · cases ha : r.owner_a with
      | none => cases hb : r.owner_b <;> simp [mainLinksetE, ha, hb]
      | some a =>
        cases hb : r.owner_b with
        | none => simp [mainLinksetE, ha, hb]
        | some b =>
          simp only [mainLinksetE, ha, hb]
          exact ih _ ⟨r', hmem, hdef⟩

theorem claim_C8_amended_missing_owner_aborts_witness :
    mainLinksetE simNine [cRowBad, cRowGood] ∅ = Except.error () :=
  claim_C8_amended_missing_owner_aborts simNine [cRowBad, cRowGood] ∅
    ⟨cRowBad, by decide, Or.inl rfl⟩

/-! ### Identifier-minting facts (claim C2) -/

lemma string_data_append (a b : String) : (a ++ b).data = a.data ++ b.data := by
  cases a; cases b; rfl

lemma string_eq_of_data {a b : String} (h : a.data = b.data) : a = b := by
  cases a; cases b; exact congrArg String.mk h

/-- A leading `'0'` does not change the decoded value. -/
lemma listVal_zero_cons (l : List Char) : listVal ('0' :: l) = listVal l := rfl

lemma listVal_padZeros (w : Nat) (l : List Char) :
    listVal (padZeros w l) = listVal l := by
  unfold padZeros
  generalize w - l.length = k
  induction k with
  | zero => rfl
  | succ k ih => rw [List.replicate_succ, List.cons_append, listVal_zero_cons, ih]

/-- Little-endian decoder matching `decimalDigitsRev`. -/
def valRev : List Nat → Nat
  | [] => 0
  | d :: ds => d + 10 * valRev ds

lemma valRev_go (fuel n : Nat) (h : n ≤ fuel) :
    valRev (decimalDigitsRev.go fuel n) = n := by
  induction fuel generalizing n with
  | zero => interval_cases n; rfl
  | succ fuel ih =>
    unfold decimalDigitsRev.go
    by_cases h0 : n = 0
    · simp [h0, valRev]
    · rw [if_neg h0]
      have hlt : n / 10 ≤ fuel := by
        have := Nat.div_lt_self (Nat.pos_of_ne_zero h0) (by norm_num : 1 < 10)
        omega
      rw [valRev, ih _ hlt, Nat.add_comm, Nat.div_add_mod]

lemma go_digit_lt (fuel n : Nat) : ∀ d ∈ decimalDigitsRev.go fuel n, d < 10 := by
  induction fuel generalizing n with
  | zero => intro d hd; simp [decimalDigitsRev.go] at hd
  | succ fuel ih =>
    intro d hd
    unfold decimalDigitsRev.go at hd
    by_cases h0 : n = 0
    · simp [h0] at hd
    · rw [if_neg h0] at hd
      rcases List.mem_cons.1 hd with rfl | hmem
      · exact Nat.mod_lt _ (by norm_num)
      · exact ih _ _ hmem

lemma decimalDigitsRev_digit_lt (n : Nat) : ∀ d ∈ decimalDigitsRev n, d < 10 :=
  go_digit_lt n n

lemma valRev_decimalDigitsRev (n : Nat) : valRev (decimalDigitsRev n) = n :=
  valRev_go n n (le_refl n)

lemma digitChar_toNat : ∀ d, d < 10 → (Nat.digitChar d).toNat = 48 + d := by
  decide

lemma digitChar_not_sign : ∀ d, d < 10 →
    Nat.digitChar d ≠ '+' ∧ Nat.digitChar d ≠ '-' := by
  decide

/-- Decoding the big-endian character rendering of a digit list gives
its little-endian value. -/
lemma listVal_rev_map (ds : List Nat) (h : ∀ d ∈ ds, d < 10) :
    listVal (ds.reverse.map Nat.digitChar) = valRev ds := by
  induction ds with
  | nil => rfl
  | cons d t ih =>
    have hd : d < 10 := h d (List.mem_cons_self d t)
    have ht : ∀ x ∈ t, x < 10 := fun x hx => h x (List.mem_cons_of_mem d hx)
    rw [List.reverse_cons, List.map_append]
    unfold listVal
    rw [List.foldl_append]
    have hmid : List.foldl (fun a c => 10 * a + (c.toNat - 48)) 0
        (List.map Nat.digitChar t.reverse) = valRev t := ih ht
    rw [hmid, valRev]
    simp only [List.map_cons, List.map_nil, List.foldl_cons, List.foldl_nil]
    rw [digitChar_toNat d hd]
    omega

lemma listVal_decimalRepr (n : Nat) : listVal (decimalRepr n).data = n := by
  unfold decimalRepr
  by_cases h0 : n = 0
  · subst h0; rfl
  · rw [if_neg h0]
    show listVal ((decimalDigitsRev n).reverse.map Nat.digitChar) = n
    rw [listVal_rev_map _ (decimalDigitsRev_digit_lt n), valRev_decimalDigitsRev]

lemma decimalRepr_not_sign (n : Nat) :
    ∀ c ∈ (decimalRepr n).data, c ≠ '+' ∧ c ≠ '-' := by
  unfold decimalRepr
  by_cases h0 : n = 0
  · subst h0
    intro c hc
    have hc' : c ∈ ['0'] := hc
    simp at hc'
    subst hc'
    exact ⟨by decide, by decide⟩
  · rw [if_neg h0]
    intro c hc
    have hc' : c ∈ (decimalDigitsRev n).reverse.map Nat.digitChar := hc
    simp only [List.mem_map, List.mem_reverse] at hc'
    obtain ⟨d, hd, rfl⟩ := hc'
    exact digitChar_not_sign d (decimalDigitsRev_digit_lt n d hd)

/-- Zero-filling a string whose head is not a sign just pads it. -/
lemma pyZfillL_not_sign (w : Nat) (l : List Char)
    (h : ∀ c ∈ l, c ≠ '+' ∧ c ≠ '-') : pyZfillL w l = padZeros w l := by
  cases l with
  | nil => rfl
  | cons c rest =>
    have hc := h c (List.mem_cons_self c rest)
    rw [pyZfillL, if_neg (by tauto)]

/-- Zero-filling a canonical numeral preserves its decoded value. -/
lemma listVal_pyZfill_decimalRepr (w n : Nat) :
    listVal (pyZfill w (decimalRepr n)).data = n := by
  show listVal (pyZfillL w (decimalRepr n).data) = n
  rw [pyZfillL_not_sign w _ (decimalRepr_not_sign n), listVal_padZeros,
    listVal_decimalRepr]

/-- Distinctness of role-and-index suffixes over the roles and index
ranges actually used by the builders. -/
lemma role_suffix_ne :
    ∀ r₁ ∈ roleNames, ∀ r₂ ∈ roleNames, ∀ n₁, n₁ < 15 → ∀ n₂, n₂ < 15 →
      (r₁, n₁) ≠ (r₂, n₂) →
      r₁ ++ pyZfill 2 (decimalRepr n₁) ≠ r₂ ++ pyZfill 2 (decimalRepr n₂) := by
  decide

/-- C2: Person identifiers are `{recordId}{role}{index:02d}` and Item
identifiers `{recordId}_{index:04d}`; minting is a pure function of its
inputs, distinct (role, position) pairs give distinct Person
identifiers under one inventory, and distinct item indices give
distinct Item identifiers. -/
theorem claim_C2_identifier_minting :
    (∀ recordId role n, personIdent recordId role n =
      recordId ++ role ++ pyZfill 2 (decimalRepr n)) ∧
    (∀ recordId itemNo, itemIdent recordId itemNo =
      recordId ++ "_" ++ pyZfill 4 itemNo) ∧
    (∀ recordId r₁ r₂ n₁ n₂, r₁ ∈ roleNames → r₂ ∈ roleNames →
      1 ≤ n₁ → n₁ ≤ 14 → 1 ≤ n₂ → n₂ ≤ 14 → (r₁, n₁) ≠ (r₂, n₂) →
      personIdent recordId r₁ n₁ ≠ personIdent recordId r₂ n₂) ∧
    (∀ recordId n m, n ≠ m →
      itemIdent recordId (decimalRepr n) ≠ itemIdent recordId (decimalRepr m)) := by
  refine ⟨fun _ _ _ => rfl, fun _ _ => rfl, ?_, ?_⟩
  · intro rec r₁ r₂ n₁ n₂ h₁ h₂ _ hu₁ _ hu₂ hne heq
    have hd := congrArg String.data heq
    unfold personIdent at hd
    rw [string_data_append, string_data_append, string_data_append,
      string_data_append, List.append_assoc, List.append_assoc] at hd
    have hsuffix : r₁ ++ pyZfill 2 (decimalRepr n₁) = r₂ ++ pyZfill 2 (decimalRepr n₂) :=
      string_eq_of_data (by
        rw [string_data_append, string_data_append]
        exact List.append_cancel_left hd)
    exact role_suffix_ne r₁ h₁ r₂ h₂ n₁ (by omega) n₂ (by omega) hne hsuffix
  · intro rec n m hne heq
    apply hne
    have hd := congrArg String.data heq
    unfold itemIdent at hd
    rw [string_data_append, string_data_append, string_data_append,
      string_data_append, List.append_assoc, List.append_assoc] at hd
    have h2 := List.append_cancel_left (List.append_cancel_left hd)
    have h3 := congrArg listVal h2
    rwa [listVal_pyZfill_decimalRepr, listVal_pyZfill_decimalRepr] at h3

theorem claim_C2_identifier_minting_witness :
    personIdent "N-100" "owner" 1 ≠ personIdent "N-100" "beneficiary" 1 ∧
    personIdent "N-100" "owner" 1 ≠ personIdent "N-100" "owner" 2 ∧
    itemIdent "N-100" (decimalRepr 12) ≠ itemIdent "N-100" (decimalRepr 102) :=
  ⟨claim_C2_identifier_minting.2.2.1 "N-100" "owner" "beneficiary" 1 1
     (by decide) (by decide) (by decide) (by decide) (by decide) (by decide)
     (by decide),
   claim_C2_identifier_minting.2.2.1 "N-100" "owner" "owner" 1 2
     (by decide) (by decide) (by decide) (by decide) (by decide) (by decide)
     (by decide),
   claim_C2_identifier_minting.2.2.2 "N-100" 12 102 (by decide)⟩

/-- C3: for every description row the emitted registration date is the
begin date when both dates or only the begin date parsed, the end date
when only the end date parsed, and absent when neither parsed (the
begin and end parses are independent attempts). -/
theorem claim_C3_registration_date :
    ∀ (r : Rec) (d d' : PyDate),
      (gettyParseBegin r = some d → gettyParseEnd r = some d' →
        gettyRegTriples r =
          [(gettyInvTerm r, saaT "registrationDate", litD (fmtDate d) xsdDate)]) ∧
      (gettyParseBegin r = some d → gettyParseEnd r = none →
        gettyRegTriples r =
          [(gettyInvTerm r, saaT "registrationDate", litD (fmtDate d) xsdDate)]) ∧
      (gettyParseBegin r = none → gettyParseEnd r = some d' →
        gettyRegTriples r =
          [(gettyInvTerm r, saaT "registrationDate", litD (fmtDate d') xsdDate)]) ∧
      (gettyParseBegin r = none → gettyParseEnd r = none →
        gettyRegTriples r = []) := by
  intro r d d'
  refine ⟨fun hb he => ?_, fun hb he => ?_, fun hb he => ?_, fun hb he => ?_⟩ <;>
    · unfold gettyRegTriples registrationDateOf
      rw [hb, he]
      rfl

/-- A description row with a parseable begin date and empty end-date
fields. -/
def descRowBegin : Rec := fun k =>
  if k = "pi_record_no" then "N-100"
  else if k = "begin_date_year" then "1684"
  else if k = "begin_date_month" then "10"
  else if k = "begin_date_day" then "4"
  else ""

/-- A description row with empty begin-date fields and a parseable end
date. -/
def descRowEnd : Rec := fun k =>
  if k = "pi_record_no" then "N-101"
  else if k = "end_date_year" then "1685"
  else if k = "end_date_month" then "1"
  else if k = "end_date_day" then "1"
  else ""

theorem claim_C3_registration_date_witness :
    gettyRegTriples descRowBegin =
      [(gettyInvTerm descRowBegin, saaT "registrationDate",
        litD "1684-10-04" xsdDate)] ∧
    gettyRegTriples descRowEnd =
      [(gettyInvTerm descRowEnd, saaT "registrationDate",
        litD "1685-01-01" xsdDate)] :=
  ⟨(claim_C3_registration_date descRowBegin ⟨1684, 10, 4⟩ ⟨1684, 10, 4⟩).2.1
     (by decide) (by decide),
   (claim_C3_registration_date descRowEnd ⟨1685, 1, 1⟩ ⟨1685, 1, 1⟩).2.2.1
     (by decide) (by decide)⟩

/-- C4: dialect A extracts a book number only when the archive location
contains "Amsterdam"; when it does, the result is the uppercased first
match of the `NAA`/`GAA NA` pattern; on the spec's concrete inputs the
extraction yields "2413" and the Antwerp location yields nothing. -/
theorem claim_C4_dialectA_extraction :
    (∀ loc doc b, dialectA loc doc = some b →
      containsSub "Amsterdam".data loc.data = true) ∧
    (∀ loc doc, containsSub "Amsterdam".data loc.data = true → doc ≠ "" →
      dialectA loc doc = (findA doc.data).map (fun cap => pyUpper ⟨cap⟩)) ∧
    (dialectA "Amsterdam" "NAA 2413 (film 2552)" = some "2413") ∧
    (dialectA "Amsterdam, NL" "GAA NA 235b, fol. 2" = some "235B") ∧
    (∀ doc, dialectA "Antwerp" doc = none) := by
  refine ⟨?_, ?_, by decide, by decide, ?_⟩
  · intro loc doc b h
    unfold dialectA at h
    by_cases hc : doc ≠ "" ∧ containsSub "Amsterdam".data loc.data = true
    · exact hc.2
    · rw [if_neg hc] at h
      exact absurd h (by simp)
  · intro loc doc hc hd
    unfold dialectA
    rw [if_pos ⟨hd, hc⟩]
  · intro doc
    unfold dialectA
    rw [if_neg]
    rintro ⟨-, hc⟩
    exact absurd hc (by decide)

theorem claim_C4_dialectA_extraction_witness :
    dialectA "Amsterdam" "NAA 2413 (film 2552)" =
      (findA "NAA 2413 (film 2552)".data).map (fun cap => pyUpper ⟨cap⟩) ∧
    containsSub "Amsterdam".data "Amsterdam".data = true :=
  ⟨claim_C4_dialectA_extraction.2.1 "Amsterdam" "NAA 2413 (film 2552)"
     (by decide) (by decide),
   claim_C4_dialectA_extraction.1 "Amsterdam" "NAA 2413 (film 2552)" "2413"
     (by decide)⟩

/-- C5: dialect B extracts nothing when the call number contains "WK",
"DBK" or "boedel"; otherwise it extracts the first match of the
optional-`NA` digit pattern, uppercased with internal whitespace
removed; call number "NA 1234 A" yields "1234A". -/
theorem claim_C5_dialectB_extraction :
    (∀ s, containsSub "WK".data s.data = true → dialectB s = none) ∧
    (∀ s, containsSub "DBK".data s.data = true → dialectB s = none) ∧
    (∀ s, containsSub "boedel".data s.data = true → dialectB s = none) ∧
    (∀ s, s ≠ "" → containsSub "WK".data s.data = false →
      containsSub "DBK".data s.data = false →
      containsSub "boedel".data s.data = false →
      dialectB s = (findB s.data).map normalizeB) ∧
    (dialectB "NA 1234 A" = some "1234A") ∧
    (dialectB "inv. boedel 123" = none) := by
  refine ⟨?_, ?_, ?_, ?_, by decide, by decide⟩
  · intro s h
    unfold dialectB
    split_ifs <;> simp_all
  · intro s h
    unfold dialectB
    split_ifs <;> simp_all
  · intro s h
    unfold dialectB
    split_ifs <;> simp_all
  · intro s h0 h1 h2 h3
    unfold dialectB
    rw [if_neg h0, if_neg (by simp [h1]), if_neg (by simp [h2]),
      if_neg (by simp [h3])]

theorem claim_C5_dialectB_extraction_witness :
    dialectB "NA 2170 B, film 2260" =
      (findB "NA 2170 B, film 2260".data).map normalizeB ∧
    dialectB "not. boedelpapieren" = none :=
  ⟨claim_C5_dialectB_extraction.2.2.2.1 "NA 2170 B, film 2260"
     (by decide) (by decide) (by decide) (by decide),
   claim_C5_dialectB_extraction.2.2.1 "not. boedelpapieren" (by decide)⟩

/-- C6: the Archive identifier is the letters-only filtering of the
concatenated name and location fields, so rows agreeing on that
filtered string (within either dialect, or across them) get the same
Archive node. -/
theorem claim_C6_archive_identifier :
    (∀ n l, n ≠ "" → archiveIdOf n l = some (lettersOnly (n ++ l))) ∧
    (∀ n₁ l₁ n₂ l₂, n₁ ≠ "" → n₂ ≠ "" →
      lettersOnly (n₁ ++ l₁) = lettersOnly (n₂ ++ l₂) →
      archiveIdOf n₁ l₁ = archiveIdOf n₂ l₂) ∧
    (∀ a, a ≠ "" → frickArchiveIdOf a = some (lettersOnly a)) ∧
    (∀ a₁ a₂, a₁ ≠ "" → a₂ ≠ "" → lettersOnly a₁ = lettersOnly a₂ →
      frickArchiveIdOf a₁ = frickArchiveIdOf a₂) ∧
    (∀ n l a, n ≠ "" → a ≠ "" → lettersOnly (n ++ l) = lettersOnly a →
      archiveIdOf n l = frickArchiveIdOf a) := by
  refine ⟨?_, ?_, ?_, ?_, ?_⟩
  · intro n l h
    unfold archiveIdOf
    rw [if_pos h]
  · intro n₁ l₁ n₂ l₂ h₁ h₂ h
    unfold archiveIdOf
    rw [if_pos h₁, if_pos h₂, h]
  · intro a h
    unfold frickArchiveIdOf
    rw [if_pos h]
  · intro a₁ a₂ h₁ h₂ h
    unfold frickArchiveIdOf
    rw [if_pos h₁, if_pos h₂, h]
  · intro n l a hn ha h
    unfold archiveIdOf frickArchiveIdOf
    rw [if_pos hn, if_pos ha, h]

theorem claim_C6_archive_identifier_witness :
    archiveIdOf "Gemeente archief" "Amsterdam" =
      archiveIdOf "Gemeentearchief" " Amsterdam." ∧
    archiveIdOf "Gemeente archief" "Amsterdam" =
      frickArchiveIdOf "Gemeentearchief (Amsterdam)" :=
  ⟨claim_C6_archive_identifier.2.1 "Gemeente archief" "Amsterdam"
     "Gemeentearchief" " Amsterdam." (by decide) (by decide) (by decide),
   claim_C6_archive_identifier.2.2.2.2 "Gemeente archief" "Amsterdam"
     "Gemeentearchief (Amsterdam)" (by decide) (by decide) (by decide)⟩

/-- C10: each per-row builder is idempotent on the graph — running it
twice on the same row adds exactly the triples of one run, because the
contributed triple set is a function of the row alone (all blank nodes
are string-named) and graph insertion has set semantics. -/
theorem claim_C10_builder_idempotence :
    ∀ (r : Rec) (g : Finset Triple),
      gettyDescription2rdf r (gettyDescription2rdf r g) =
        gettyDescription2rdf r g ∧
      gettyItems2rdf r (gettyItems2rdf r g) = gettyItems2rdf r g ∧
      frickDescription2rdf r (frickDescription2rdf r g) =
        frickDescription2rdf r g ∧
      frickItems2rdf r (frickItems2rdf r g) = frickItems2rdf r g := by
  intro r g
  refine ⟨?_, ?_, ?_, ?_⟩ <;>
    simp [gettyDescription2rdf, gettyItems2rdf, frickDescription2rdf,
      frickItems2rdf, Finset.union_assoc]

/-- A Frick description row whose `date` cell is empty. -/
def frickRowEmptyDate : Rec := fun k => if k = "inventory_number" then "I-1" else ""

/-- A Getty items row whose `title` cell is empty. -/
def gettyItemRowEmptyTitle : Rec := fun k =>
  if k = "pi_inventory_no" then "N-1"
  else if k = "assigned_item_no" then "1"
  else ""

/-- C9 counterexample: empty optional values do produce output
statements — an empty Frick `date` still emits a `registrationDate`
statement with an empty literal, and an empty `title` still constructs
the Item entity together with an empty label. -/
theorem claim_C9_counterexample_empty_values_emitted :
    (frickInvTerm frickRowEmptyDate, saaT "registrationDate", litD "" xsdDate)
      ∈ frickDescTriples frickRowEmptyDate ∧
    (gettyItemTerm gettyItemRowEmptyTitle, rdfType, saaT "Item")
      ∈ gettyItemTriples gettyItemRowEmptyTitle ∧
    (gettyItemTerm gettyItemRowEmptyTitle, rdfsLabel, litL "" "nl")
      ∈ gettyItemTriples gettyItemRowEmptyTitle := by
  refine ⟨?_, ?_, ?_⟩ <;> decide

/-- C9 amended: the guarded optional fields (introduction, role names,
persistent uid, room, valuation, owner name, appraiser, value) are
silently skipped when empty — in particular an empty person-name field
means no Person entity — but the title, transcription and similar
unconditional fields are emitted even when empty (an empty title still
constructs the Item with an empty label), and the Frick dialect emits a
`registrationDate` statement even for an empty date. -/
theorem claim_C9_amended_empty_value_handling :
    ∀ r : Rec,
      (r "introduction" = "" → gettyCommentTriples r = []) ∧
      (∀ field role pred n, r (field ++ decimalRepr n) = "" →
        gettyRoleTriples r field role pred n = []) ∧
      (r "persistent_uid" = "" → gettyPuidTriples r = []) ∧
      (r "room" = "" → gettyRoomTriples r = []) ∧
      (r "valuation_amount" = "" → gettyValuationTriples r = []) ∧
      (r "owner_name" = "" → frickOwnerTriples r = []) ∧
      (r "appraiser" = "" → frickAppraiserTriples r = []) ∧
      (r "room" = "" → frickRoomTriples r = []) ∧
      (r "value" = "" → frickValueTriples r = []) ∧
      ((gettyItemTerm r, rdfsLabel, litL (r "title") "nl") ∈ gettyItemTriples r) ∧
      ((frickInvTerm r, saaT "registrationDate", litD (frickDate r) xsdDate)
        ∈ frickDescTriples r) := by
  intro r
  refine ⟨fun h => ?_, fun f ro p n h => ?_, fun h => ?_, fun h => ?_,
    fun h => ?_, fun h => ?_, fun h => ?_, fun h => ?_, fun h => ?_, ?_, ?_⟩
  · simp [gettyCommentTriples, h]
  · simp [gettyRoleTriples, h]
  · simp [gettyPuidTriples, h]
  · simp [gettyRoomTriples, h]
  · simp [gettyValuationTriples, h]
  · simp [frickOwnerTriples, h]
  · simp [frickAppraiserTriples, h]
  · simp [frickRoomTriples, h]
  · simp [frickValueTriples, h]
  · simp [gettyItemTriples]
  · simp [frickDescTriples, frickRegTriples]

theorem claim_C9_amended_empty_value_handling_witness :
    gettyCommentTriples gettyItemRowEmptyTitle = [] ∧
    frickOwnerTriples frickRowEmptyDate = [] :=
  ⟨(claim_C9_amended_empty_value_handling gettyItemRowEmptyTitle).1 (by decide),
   (claim_C9_amended_empty_value_handling frickRowEmptyDate).2.2.2.2.2.1
     (by decide)⟩
